import Mathlib

/-!
Verification of the tari peer-to-peer message-routing layer:
shallow embedding of the store-and-forward database
(comms/dht/src/store_forward/database/mod.rs), the forward middleware
(comms/dht/src/store_forward/forward.rs) and the outbound messaging
worker (comms/src/protocol/messaging/outbound.rs), together with
theorems settling the specification claims about them.

Conventions of the embedding:
* public keys and node ids are modelled as `Nat`; the hex encoding used
  by the database layer is injective, so columns that store `to_hex`
  values are modelled as storing the value itself;
* timestamps (`NaiveDateTime`) are modelled as `Nat`;
* SQL three-valued logic on nullable columns is modelled with `Option`:
  `col.eq(v)` is false on NULL, `col.ne(v)` is false on NULL,
  `col.is_null()` is `Option.isNone`;
* the `i64` query limit is modelled as `Nat` (negative limits are not
  used by any caller);
* `ORDER BY stored_at ASC` followed by `LIMIT n` is modelled as a
  sort by `stored_at` followed by `List.take n`.
-/

deriving instance DecidableEq for Except

abbrev PublicKey := Nat

abbrev NodeId := Nat

/-- Modelled from the spec: the XOR-style distance metric over fixed
length identifiers (`NodeId::distance`; the node-id source is not part
of the excerpt). -/
def nodeDistance (a b : NodeId) : Nat :=
Nat.xor a b

/-- DHT message type ordinal (proto `DhtMessageType`); only the variants
the routing layer inspects are distinguished. -/
inductive DhtMessageType where
| none
| join
| discovery
| other (code : Nat)
deriving DecidableEq

/-- Storage priority of a stored message (`StoredMessagePriority`). -/
inductive StoredMessagePriority where
| low
| high
deriving DecidableEq

/-- Row of the `stored_messages` table, with the columns the queries of
`database/mod.rs` reference. -/
structure StoredMessage where
destination_pubkey : Option PublicKey
destination_node_id : Option NodeId
origin_pubkey : Option PublicKey
message_type : DhtMessageType
priority : StoredMessagePriority
is_encrypted : Bool
body : Nat
stored_at : Nat
deriving DecidableEq

namespace StoreAndForwardDatabase

/-- The optional `since` filter appended to each query:
`stored_messages::stored_at.ge(since)`. -/
def since_ok (since : Option Nat) (m : StoredMessage) : Bool :=
match since with
| some s => decide (s ≤ m.stored_at)
| Option.none => true

/-- Shared query shape: `filter`, `order_by(stored_at.asc)`, `limit`. -/
def run_query (pred : StoredMessage → Bool) (limit : Nat) (db : List StoredMessage) : List StoredMessage :=
((db.filter pred).insertionSort fun a b => a.stored_at ≤ b.stored_at).take limit

/-- `insert_message`: append-only insert into `stored_messages`. -/
def insert_message (db : List StoredMessage) (message : StoredMessage) : List StoredMessage :=
db ++ [message]

/-- `find_messages_for_peer`: destination pubkey equals the given key OR
destination node id equals the given node id, oldest first, limited. -/
def find_messages_for_peer (db : List StoredMessage) (public_key : PublicKey) (node_id : NodeId) (since : Option Nat) (limit : Nat) : List StoredMessage :=
run_query
  (fun m => (m.destination_pubkey == some public_key || m.destination_node_id == some node_id) && since_ok since m)
  limit db

/-- The storage-level filter of `find_regional_messages`:
`destination_node_id.ne(node_id)` (false on NULL), `is_not_null`, and
`message_type = DhtMessageType::None`. -/
def regional_pred (node_id : NodeId) (since : Option Nat) (m : StoredMessage) : Bool :=
(match m.destination_node_id with
 | some d => d != node_id
 | Option.none => false)
&& m.message_type == DhtMessageType.none && since_ok since m

/-- The in-process distance filter applied when a threshold is given:
keep a row when its destination node id equals the querying id or is
within the threshold distance of it. -/
def within_threshold (node_id : NodeId) (dist_threshold : Nat) (m : StoredMessage) : Bool :=
match m.destination_node_id with
| some dest_node_id => dest_node_id == node_id || decide (nodeDistance dest_node_id node_id ≤ dist_threshold)
| Option.none => true

/-- `find_regional_messages`: storage query then optional in-process
distance filter. -/
def find_regional_messages (db : List StoredMessage) (node_id : NodeId) (dist_threshold : Option Nat) (since : Option Nat) (limit : Nat) : List StoredMessage :=
let results := run_query (regional_pred node_id since) limit db
match dist_threshold with
| some t => results.filter (within_threshold node_id t)
| Option.none => results

/-- `find_anonymous_messages`: null origin, null destination pubkey,
encrypted, of type none. -/
def find_anonymous_messages (db : List StoredMessage) (since : Option Nat) (limit : Nat) : List StoredMessage :=
run_query
  (fun m => m.origin_pubkey.isNone && m.destination_pubkey.isNone && m.is_encrypted && m.message_type == DhtMessageType.none && since_ok since m)
  limit db

/-- `find_messages_of_type_for_pubkey`: destination pubkey equals the
given key or is null, and the message type matches. -/
def find_messages_of_type_for_pubkey (db : List StoredMessage) (public_key : PublicKey) (message_type : DhtMessageType) (since : Option Nat) (limit : Nat) : List StoredMessage :=
run_query
  (fun m => (m.destination_pubkey == some public_key || m.destination_pubkey.isNone) && m.message_type == message_type && since_ok since m)
  limit db

/-- `delete_messages_with_priority_older_than`: delete rows with
`stored_at < since` and the given priority; returns the remaining table
and the number of deleted rows. -/
def delete_messages_with_priority_older_than (db : List StoredMessage) (priority : StoredMessagePriority) (since : Nat) : List StoredMessage × Nat :=
(db.filter fun m => !(decide (m.stored_at < since) && m.priority == priority),
 db.countP fun m => decide (m.stored_at < since) && m.priority == priority)

end StoreAndForwardDatabase

/-- Tagged destination carried in every DHT message header
(`NodeDestination`). -/
inductive NodeDestination where
| unknown
| publicKey (pk : PublicKey)
| nodeId (nid : NodeId)
deriving DecidableEq

/-- Modelled from the spec: `NodeDestination::public_key()` accessor —
the concrete public key, when the destination is a public key (the
envelope source is not part of the excerpt). -/
def NodeDestination.public_key : NodeDestination → Option PublicKey
| .publicKey pk => some pk
| _ => Option.none

/-- Modelled from the spec: `NodeDestination::node_id()` accessor — the
concrete node id, when the destination is a node id. -/
def NodeDestination.node_id : NodeDestination → Option NodeId
| .nodeId nid => some nid
| _ => Option.none

/-- A known peer record: the fields the forwarding logic reads
(`Peer`). -/
structure Peer where
public_key : PublicKey
node_id : NodeId
deriving DecidableEq

/-- Modelled from the spec: the Peer Directory (`PeerManager`, not part
of the excerpt) — a collection of peer records, at most one per public
key, with lookup by public key or node id (§4.1, §6). -/
abbrev PeerManager := List Peer

/-- Modelled from the spec: `PeerManager::exists` — whether a peer with
the given public key is known. -/
def PeerManager.exists_pk (pm : PeerManager) (pk : PublicKey) : Bool :=
pm.any fun p => p.public_key == pk

/-- Modelled from the spec: `PeerManager::find_by_node_id` — the known
peer with the given node id, if any. -/
def PeerManager.find_by_node_id (pm : PeerManager) (nid : NodeId) : Option Peer :=
pm.find? fun p => p.node_id == nid

/-- Modelled from the spec: the delivery strategies the forwarder
selects — direct to one public key, or a neighbours broadcast with an
excluded-peer list, optionally including client peers (§4.2, §9). -/
inductive BroadcastStrategy where
| directPublicKey (pk : PublicKey)
| neighbours (excluded_peers : List PublicKey)
| neighboursIncludeClients (excluded_peers : List PublicKey)
deriving DecidableEq

/-- The DHT header fields the forwarder reads (`DhtMessageHeader`). -/
structure DhtMessageHeader where
destination : NodeDestination
message_type : DhtMessageType
deriving DecidableEq

/-- Modelled from the spec: `SendMessageParams` builder (its source is
not part of the excerpt) — records the chosen broadcast strategy and an
optional attached DHT header. -/
structure SendMessageParams where
broadcast_strategy : Option BroadcastStrategy
dht_header : Option DhtMessageHeader
deriving DecidableEq

/-- Modelled from the spec: `SendMessageParams::new`. -/
def SendMessageParams.new : SendMessageParams :=
⟨Option.none, Option.none⟩

/-- Modelled from the spec: `SendMessageParams::neighbours`. -/
def SendMessageParams.neighbours (p : SendMessageParams) (excluded_peers : List PublicKey) : SendMessageParams :=
{ p with broadcast_strategy := some (BroadcastStrategy.neighbours excluded_peers) }

/-- Modelled from the spec: `SendMessageParams::neighbours_include_clients`. -/
def SendMessageParams.neighbours_include_clients (p : SendMessageParams) (excluded_peers : List PublicKey) : SendMessageParams :=
{ p with broadcast_strategy := some (BroadcastStrategy.neighboursIncludeClients excluded_peers) }

/-- Modelled from the spec: `SendMessageParams::direct_public_key`. -/
def SendMessageParams.direct_public_key (p : SendMessageParams) (pk : PublicKey) : SendMessageParams :=
{ p with broadcast_strategy := some (BroadcastStrategy.directPublicKey pk) }

/-- `SendMessageParams::with_dht_header`: attach the original header so
receivers know the message is a relay. -/
def SendMessageParams.with_dht_header (p : SendMessageParams) (header : DhtMessageHeader) : SendMessageParams :=
{ p with dht_header := some header }

/-- Modelled from the spec: `SendMessageParams::finish` — the finalised
parameters. -/
def SendMessageParams.finish (p : SendMessageParams) : SendMessageParams :=
p

/-- An inbound message after the decryption attempt
(`DecryptedDhtMessage`): `decryption_result` is `Except.error body`
when decryption failed (the still-encrypted body) and `Except.ok body`
when it succeeded. -/
structure DecryptedDhtMessage where
source_peer : Peer
authenticated_origin : Option PublicKey
dht_header : DhtMessageHeader
decryption_result : Except Nat Nat

/-- `DecryptedDhtMessage::decryption_failed`. -/
def DecryptedDhtMessage.decryption_failed (m : DecryptedDhtMessage) : Bool :=
match m.decryption_result with
| .error _ => true
| .ok _ => false

/-- Error of the outbound message requester (`DhtOutboundError`). -/
inductive DhtOutboundError where
| error (code : Nat)
deriving DecidableEq

/-- `StoreAndForwardError` as raised by the forwarder. -/
inductive StoreAndForwardError where
| dhtOutboundError (e : DhtOutboundError)
deriving DecidableEq

/-- `PipelineError`: errors of a pipeline stage;
`from_debug` wraps a forwarding error. -/
inductive PipelineError where
| from_debug (e : StoreAndForwardError)
| other (code : Nat)
deriving DecidableEq

/-- A recorded call to `OutboundMessageRequester::send_raw`: the
finalised send parameters and the raw body. -/
structure SendRawCall where
params : SendMessageParams
body : Nat
deriving DecidableEq

namespace Forwarder

/-- `Forwarder::destination_matches_source`. -/
def destination_matches_source (destination : NodeDestination) (source : Peer) : Bool :=
match destination.public_key with
| some pk => pk == source.public_key
| Option.none =>
  match destination.node_id with
  | some nid => nid == source.node_id
  | Option.none => false

/-- `Forwarder::get_send_params`: select the broadcast strategy from
the received message's destination and message type. -/
def get_send_params (pm : PeerManager) (header : DhtMessageHeader) (excluded_peers : List PublicKey) : SendMessageParams :=
let params := SendMessageParams.new
let is_discovery := header.message_type == DhtMessageType.discovery
match header.destination with
| NodeDestination.unknown =>
  if is_discovery then params.neighbours_include_clients excluded_peers
  else params.neighbours excluded_peers
| NodeDestination.publicKey dest_public_key =>
  if pm.exists_pk dest_public_key then params.direct_public_key dest_public_key
  else if is_discovery then params.neighbours_include_clients excluded_peers
  else params.neighbours excluded_peers
| NodeDestination.nodeId dest_node_id =>
  match pm.find_by_node_id dest_node_id with
  | some dest_peer => params.direct_public_key dest_peer.public_key
  | Option.none =>
    if is_discovery then params.neighbours_include_clients excluded_peers
    else params.neighbours excluded_peers

/-- `Forwarder::forward`: the `send_raw_result` argument stands for the
outcome the outbound message requester returns for the (at most one)
`send_raw` call. Returns the recorded `send_raw` call, if one was made,
and the function's result. In the source the `Except.ok` branch of
`decryption_result` is unreachable (`expect` would panic); `forward` is
only invoked under `handle`'s `decryption_failed` guard. -/
def forward (pm : PeerManager) (send_raw_result : Except DhtOutboundError Unit) (message : DecryptedDhtMessage) : Option SendRawCall × Except StoreAndForwardError Unit :=
if destination_matches_source message.dht_header.destination message.source_peer then
  (Option.none, .ok ())
else
  match message.decryption_result with
  | .ok _ => (Option.none, .ok ())
  | .error body =>
    let excluded_peers := message.source_peer.public_key :: message.authenticated_origin.toList
    let message_params := (get_send_params pm message.dht_header excluded_peers).with_dht_header message.dht_header
    match send_raw_result with
    | .ok _ => (some ⟨message_params.finish, body⟩, .ok ())
    | .error e => (some ⟨message_params.finish, body⟩, .error (StoreAndForwardError.dhtOutboundError e))

/-- Observable outcome of `Forwarder::handle`: the `send_raw` call made
(if any), whether the next pipeline service was invoked, and the
call's result. -/
structure HandleOutcome where
forward_call : Option SendRawCall
next_called : Bool
result : Except PipelineError Unit
deriving DecidableEq

/-- `Forwarder::handle`: forward when decryption failed (propagating a
forwarding error via `?` after `map_err(PipelineError::from_debug)`),
then pass the message to the next service. `next_result` stands for the
next service's outcome. -/
def handle (pm : PeerManager) (send_raw_result : Except DhtOutboundError Unit) (next_result : Except PipelineError Unit) (message : DecryptedDhtMessage) : HandleOutcome :=
if message.decryption_failed then
  match forward pm send_raw_result message with
  | (call, .error e) => ⟨call, false, .error (PipelineError.from_debug e)⟩
  | (call, .ok _) => ⟨call, true, next_result⟩
else
  ⟨Option.none, true, next_result⟩

/-- The delivery plan as the specification's words describe it (§4.2 as
applied by §4.4): direct delivery when the destination is a public key
present in the directory or a node id resolving to a known peer;
otherwise a neighbours broadcast excluding exactly the source peer's
public key plus the authenticated origin when present, in the
clients-inclusive variant exactly when the message type is Discovery. -/
def plan_spec (pm : PeerManager) (destination : NodeDestination) (message_type : DhtMessageType) (source_pk : PublicKey) (authenticated_origin : Option PublicKey) : BroadcastStrategy :=
let excluded := source_pk :: authenticated_origin.toList
let broadcast :=
  if message_type == DhtMessageType.discovery then BroadcastStrategy.neighboursIncludeClients excluded
  else BroadcastStrategy.neighbours excluded
match destination with
| NodeDestination.publicKey pk =>
  if pm.exists_pk pk then BroadcastStrategy.directPublicKey pk else broadcast
| NodeDestination.nodeId nid =>
  match pm.find_by_node_id nid with
  | some p => BroadcastStrategy.directPublicKey p.public_key
  | Option.none => broadcast
| NodeDestination.unknown => broadcast

end Forwarder

/-- An outbound message queued to a per-peer delivery worker
(`OutboundMessage`): the fields `to_envelope_bytes` destructures. -/
structure OutboundMessage where
tag : Nat
flags : Nat
body : Nat
peer_node_id : NodeId
deriving DecidableEq

/-- `MessagingEvent`: the observability events a worker publishes. -/
inductive MessagingEvent where
| messageSent (tag : Nat)
| sendMessageFailed (msg : OutboundMessage)
deriving DecidableEq

/-- `MessagingProtocolError`. -/
inductive MessagingProtocolError where
| peerDialFailed
| outboundSubstreamFailure
| envelopeFailure (code : Nat)
deriving DecidableEq

/-- Outcome of one dial attempt by the connection manager:
a connection, `ConnectionManagerError::DialCancelled`, or any other
dial error. -/
inductive DialOutcome where
| ok
| dialCancelled
| dialFailed (code : Nat)
deriving DecidableEq

namespace OutboundMessaging

/-- `OutboundMessaging::flush_all_messages_to_failed_event`: close the
request channel and report every remaining queued message as a
send-failure event. -/
def flush_all_messages_to_failed_event (queued : List OutboundMessage) : List MessagingEvent :=
queued.map MessagingEvent.sendMessageFailed

/-- `OutboundMessaging::try_dial_peer`: loop over the connection
manager's successive dial outcomes, retrying on `DialCancelled`. The
events published and the loop's result; `Option.none` as result means
the loop is still retrying (the outcome list supplied only `DialCancelled`
entries so far). `queued` is the channel content at the time of a
failure. -/
def try_dial_peer (queued : List OutboundMessage) : List DialOutcome → List MessagingEvent × Option (Except MessagingProtocolError Unit)
| [] => ([], Option.none)
| DialOutcome.ok :: _ => ([], some (.ok ()))
| DialOutcome.dialCancelled :: rest => try_dial_peer queued rest
| DialOutcome.dialFailed _ :: _ =>
  (flush_all_messages_to_failed_event queued, some (.error MessagingProtocolError.peerDialFailed))

/-- `OutboundMessaging::start_forwarding_messages`: pull queued
messages in order; `to_envelope_bytes` stands for signed-envelope
construction (which may fail per message) and `framed_send_ok` for
whether the framed write of that message's bytes to the substream
succeeds. An envelope failure emits one send-failure event and
continues; a write failure emits a send-failure event for the failed
message, flushes the rest as failed and terminates with
`OutboundSubstreamFailure`; a successful write emits one message-sent
event for the message's tag. -/
def start_forwarding_messages (to_envelope_bytes : OutboundMessage → Except MessagingProtocolError Nat) (framed_send_ok : OutboundMessage → Bool) : List OutboundMessage → List MessagingEvent × Except MessagingProtocolError Unit
| [] => ([], .ok ())
| out_msg :: rest =>
  match to_envelope_bytes out_msg with
  | .ok _ =>
    if framed_send_ok out_msg then
      let r := start_forwarding_messages to_envelope_bytes framed_send_ok rest
      (MessagingEvent.messageSent out_msg.tag :: r.1, r.2)
    else
      (MessagingEvent.sendMessageFailed out_msg :: flush_all_messages_to_failed_event rest,
       .error MessagingProtocolError.outboundSubstreamFailure)
  | .error _ =>
    let r := start_forwarding_messages to_envelope_bytes framed_send_ok rest
    (MessagingEvent.sendMessageFailed out_msg :: r.1, r.2)

end OutboundMessaging

namespace StoreAndForwardDatabase

theorem pred_of_mem_run_query {pred : StoredMessage → Bool} {limit : Nat} {db : List StoredMessage} {m : StoredMessage} (h : m ∈ run_query pred limit db) : pred m = true := by
have h1 : m ∈ (db.filter pred).insertionSort fun a b => a.stored_at ≤ b.stored_at :=
  List.mem_of_mem_take h
have h2 : m ∈ db.filter pred :=
  ((db.filter pred).perm_insertionSort fun a b => a.stored_at ≤ b.stored_at).mem_iff.mp h1
exact (List.mem_filter.mp h2).2

theorem mem_run_query {pred : StoredMessage → Bool} {limit : Nat} {db : List StoredMessage} {m : StoredMessage} (hm : m ∈ db) (hp : pred m = true) (hl : db.length ≤ limit) : m ∈ run_query pred limit db := by
have hf : m ∈ db.filter pred := List.mem_filter.mpr ⟨hm, hp⟩
have hperm := (db.filter pred).perm_insertionSort fun a b => a.stored_at ≤ b.stored_at
have hs : m ∈ (db.filter pred).insertionSort fun a b => a.stored_at ≤ b.stored_at :=
  hperm.mem_iff.mpr hf
have hlen : ((db.filter pred).insertionSort fun a b => a.stored_at ≤ b.stored_at).length ≤ limit := by
  calc ((db.filter pred).insertionSort fun a b => a.stored_at ≤ b.stored_at).length
      = (db.filter pred).length := hperm.length_eq
    _ ≤ db.length := db.length_filter_le pred
    _ ≤ limit := hl
rw [run_query, List.take_of_length_le hlen]
exact hs

/-- Claim C4 (counterexample): a stored message whose destination node
id is exactly the querying identifier is NOT included in the result of
`find_regional_messages` with a distance threshold — the storage-level
query filters out destinations equal to the caller's identifier. -/
theorem find_regional_excludes_exact_match :
  (⟨Option.none, some 5, Option.none, DhtMessageType.none, StoredMessagePriority.low, false, 0, 0⟩ : StoredMessage) ∉
    find_regional_messages
      [⟨Option.none, some 5, Option.none, DhtMessageType.none, StoredMessagePriority.low, false, 0, 0⟩]
      5 (some 100) Option.none 10 := by
decide

/-- Claim C4 (amended): for every call to `find_regional_messages` with
a distance threshold supplied, every stored message whose destination
identifier is farther than the threshold from the querying identifier
is excluded from the result; and a stored message whose destination
identifier is exactly the querying identifier is also excluded (for any
threshold argument), because the storage-level query only returns rows
whose destination identifier differs from the querying one. -/
theorem find_regional_messages_exclusions (db : List StoredMessage) (node_id : NodeId) (t : Nat) (since : Option Nat) (limit : Nat) (m : StoredMessage) :
  (∀ d, m.destination_node_id = some d → t < nodeDistance d node_id →
    m ∉ find_regional_messages db node_id (some t) since limit)
  ∧ (m.destination_node_id = some node_id → ∀ thr,
    m ∉ find_regional_messages db node_id thr since limit) := by
constructor
· intro d hd hfar hmem
  have hwt : within_threshold node_id t m = true :=
    (List.mem_filter.mp hmem).2
  rw [within_threshold, hd] at hwt
  rcases Bool.or_eq_true_iff.mp hwt with heq | hle
  · have hdn : d = node_id := by simpa using heq
    have h0 : nodeDistance d node_id = 0 := by
      rw [hdn]
      exact Nat.xor_self node_id
    rw [h0] at hfar
    exact Nat.not_lt_zero t hfar
  · have : nodeDistance d node_id ≤ t := of_decide_eq_true hle
    omega
· intro hd thr hmem
  have hrq : m ∈ run_query (regional_pred node_id since) limit db := by
    cases thr with
    | none => exact hmem
    | some t2 => exact (List.mem_filter.mp hmem).1
  have hp := pred_of_mem_run_query hrq
  rw [regional_pred, hd] at hp
  simp at hp

theorem find_regional_messages_exclusions_witness :
  ((⟨Option.none, some 9, Option.none, DhtMessageType.none, StoredMessagePriority.low, false, 0, 0⟩ : StoredMessage) ∉
    find_regional_messages
      [⟨Option.none, some 9, Option.none, DhtMessageType.none, StoredMessagePriority.low, false, 0, 0⟩]
      1 (some 3) Option.none 10)
  ∧ ((⟨Option.none, some 4, Option.none, DhtMessageType.none, StoredMessagePriority.low, false, 0, 0⟩ : StoredMessage) ∉
    find_regional_messages
      [⟨Option.none, some 4, Option.none, DhtMessageType.none, StoredMessagePriority.low, false, 0, 0⟩]
      4 (some 3) Option.none 10) :=
⟨(find_regional_messages_exclusions
    [⟨Option.none, some 9, Option.none, DhtMessageType.none, StoredMessagePriority.low, false, 0, 0⟩]
    1 3 Option.none 10
    ⟨Option.none, some 9, Option.none, DhtMessageType.none, StoredMessagePriority.low, false, 0, 0⟩).1
  9 rfl (by decide),
 (find_regional_messages_exclusions
    [⟨Option.none, some 4, Option.none, DhtMessageType.none, StoredMessagePriority.low, false, 0, 0⟩]
    4 3 Option.none 10
    ⟨Option.none, some 4, Option.none, DhtMessageType.none, StoredMessagePriority.low, false, 0, 0⟩).2
  rfl (some 3)⟩

/-- Claim C5 (counterexample): a stored message with null destination
public key, null destination node id and `encrypted = true` IS returned
by `find_messages_of_type_for_pubkey` (a null destination public key
satisfies that query's is-null branch), contradicting the claim that it
is eligible only via the anonymous retrieval predicate. -/
theorem null_destination_returned_by_type_query :
  (⟨Option.none, Option.none, Option.none, DhtMessageType.none, StoredMessagePriority.low, true, 0, 0⟩ : StoredMessage) ∈
    find_messages_of_type_for_pubkey
      [⟨Option.none, Option.none, Option.none, DhtMessageType.none, StoredMessagePriority.low, true, 0, 0⟩]
      7 DhtMessageType.none Option.none 10 := by
decide

/-- Claim C5 (amended): a stored message with null destination public
key, null destination identifier and `encrypted = true` is never
returned by `find_messages_for_peer` or `find_regional_messages` for
any arguments; `find_messages_of_type_for_pubkey`, however, does return
it when called with the message's type (for any public key argument),
because a null destination public key satisfies that query's is-null
branch. -/
theorem null_destination_retrieval (db : List StoredMessage) (m : StoredMessage) (hdp : m.destination_pubkey = Option.none) (hdn : m.destination_node_id = Option.none) (_henc : m.is_encrypted = true) :
  (∀ pk nid since limit, m ∉ find_messages_for_peer db pk nid since limit)
  ∧ (∀ nid thr since limit, m ∉ find_regional_messages db nid thr since limit)
  ∧ (∀ pk limit, m ∈ db → db.length ≤ limit →
      m ∈ find_messages_of_type_for_pubkey db pk m.message_type Option.none limit) := by
refine ⟨?_, ?_, ?_⟩
· intro pk nid since limit hmem
  have hp := pred_of_mem_run_query hmem
  rw [hdp, hdn] at hp
  simp at hp
· intro nid thr since limit hmem
  have hrq : m ∈ run_query (regional_pred nid since) limit db := by
    cases thr with
    | none => exact hmem
    | some t2 => exact (List.mem_filter.mp hmem).1
  have hp := pred_of_mem_run_query hrq
  rw [regional_pred, hdn] at hp
  simp at hp
· intro pk limit hmem hlim
  refine mem_run_query hmem ?_ hlim
  rw [hdp]
  simp [since_ok]

theorem null_destination_retrieval_witness :
  ((⟨Option.none, Option.none, Option.none, DhtMessageType.none, StoredMessagePriority.low, true, 0, 0⟩ : StoredMessage) ∉
    find_messages_for_peer
      [⟨Option.none, Option.none, Option.none, DhtMessageType.none, StoredMessagePriority.low, true, 0, 0⟩]
      7 3 Option.none 10)
  ∧ ((⟨Option.none, Option.none, Option.none, DhtMessageType.none, StoredMessagePriority.low, true, 0, 0⟩ : StoredMessage) ∈
    find_messages_of_type_for_pubkey
      [⟨Option.none, Option.none, Option.none, DhtMessageType.none, StoredMessagePriority.low, true, 0, 0⟩]
      7 DhtMessageType.none Option.none 10) :=
⟨(null_destination_retrieval
    [⟨Option.none, Option.none, Option.none, DhtMessageType.none, StoredMessagePriority.low, true, 0, 0⟩]
    ⟨Option.none, Option.none, Option.none, DhtMessageType.none, StoredMessagePriority.low, true, 0, 0⟩
    rfl rfl rfl).1 7 3 Option.none 10,
 (null_destination_retrieval
    [⟨Option.none, Option.none, Option.none, DhtMessageType.none, StoredMessagePriority.low, true, 0, 0⟩]
    ⟨Option.none, Option.none, Option.none, DhtMessageType.none, StoredMessagePriority.low, true, 0, 0⟩
    rfl rfl rfl).2.2 7 10 (by decide) (by decide)⟩

/-- Claim C8: a stored message inserted with destination public key `K`
is returned by `find_messages_for_peer(K, any-identifier, None, limit)`
whenever the limit covers the table, and is never returned by
`find_anonymous_messages`, whatever its other fields and whatever that
query's arguments. -/
theorem insert_find_for_peer_round_trip (db : List StoredMessage) (m : StoredMessage) (K : PublicKey) (nid : NodeId) (limit : Nat) (hK : m.destination_pubkey = some K) (hlim : (insert_message db m).length ≤ limit) :
  m ∈ find_messages_for_peer (insert_message db m) K nid Option.none limit
  ∧ ∀ db2 since2 limit2, m ∉ find_anonymous_messages db2 since2 limit2 := by
constructor
· refine mem_run_query ?_ ?_ hlim
  · exact List.mem_append.mpr (Or.inr (List.mem_singleton.mpr rfl))
  · rw [hK]
    simp [since_ok]
· intro db2 since2 limit2 hmem
  have hp := pred_of_mem_run_query hmem
  rw [hK] at hp
  simp at hp

theorem insert_find_for_peer_round_trip_witness :
  ((⟨some 3, Option.none, Option.none, DhtMessageType.none, StoredMessagePriority.low, false, 0, 0⟩ : StoredMessage) ∈
    find_messages_for_peer
      (insert_message [] ⟨some 3, Option.none, Option.none, DhtMessageType.none, StoredMessagePriority.low, false, 0, 0⟩)
      3 0 Option.none 1)
  ∧ ((⟨some 3, Option.none, Option.none, DhtMessageType.none, StoredMessagePriority.low, false, 0, 0⟩ : StoredMessage) ∉
    find_anonymous_messages
      [⟨some 3, Option.none, Option.none, DhtMessageType.none, StoredMessagePriority.low, false, 0, 0⟩]
      Option.none 10) :=
⟨(insert_find_for_peer_round_trip [] ⟨some 3, Option.none, Option.none, DhtMessageType.none, StoredMessagePriority.low, false, 0, 0⟩ 3 0 1 rfl (by decide)).1,
 (insert_find_for_peer_round_trip [] ⟨some 3, Option.none, Option.none, DhtMessageType.none, StoredMessagePriority.low, false, 0, 0⟩ 3 0 1 rfl (by decide)).2
  [⟨some 3, Option.none, Option.none, DhtMessageType.none, StoredMessagePriority.low, false, 0, 0⟩] Option.none 10⟩

/-- Claim C9: `delete_messages_with_priority_older_than(priority,
cutoff)` keeps a subsequence of the table (nothing is reordered or
duplicated) and a message survives it exactly when it was in the table
and is not (of the given priority and stored strictly before the
cutoff); in particular messages of another priority, and messages of
the given priority stored at or after the cutoff, are all kept. -/
theorem delete_older_than_exact (db : List StoredMessage) (p : StoredMessagePriority) (cutoff : Nat) :
  ((delete_messages_with_priority_older_than db p cutoff).1).Sublist db
  ∧ ∀ m, m ∈ (delete_messages_with_priority_older_than db p cutoff).1 ↔
      m ∈ db ∧ ¬(m.priority = p ∧ m.stored_at < cutoff) := by
constructor
· exact List.filter_sublist db
· intro m
  rw [delete_messages_with_priority_older_than]
  simp only [List.mem_filter]
  constructor
  · rintro ⟨hm, hb⟩
    refine ⟨hm, ?_⟩
    rintro ⟨hp, hlt⟩
    rw [hp] at hb
    simp [hlt] at hb
  · rintro ⟨hm, hb⟩
    refine ⟨hm, ?_⟩
    by_cases hp : m.priority = p
    · have hlt : ¬ m.stored_at < cutoff := fun h => hb ⟨hp, h⟩
      simp [hp, hlt]
    · simp [hp]

end StoreAndForwardDatabase

namespace Forwarder

theorem get_send_params_strategy (pm : PeerManager) (header : DhtMessageHeader) (source_pk : PublicKey) (origin : Option PublicKey) :
  (get_send_params pm header (source_pk :: origin.toList)).broadcast_strategy
    = some (plan_spec pm header.destination header.message_type source_pk origin) := by
obtain ⟨dest, mt⟩ := header
cases dest with
| unknown =>
  by_cases hd : mt == DhtMessageType.discovery <;>
    simp [get_send_params, plan_spec, hd, SendMessageParams.new, SendMessageParams.neighbours,
      SendMessageParams.neighbours_include_clients]
| publicKey pk =>
  by_cases hex : pm.exists_pk pk <;>
    by_cases hd : mt == DhtMessageType.discovery <;>
      simp [get_send_params, plan_spec, hex, hd, SendMessageParams.new, SendMessageParams.neighbours,
        SendMessageParams.neighbours_include_clients, SendMessageParams.direct_public_key]
| nodeId nid =>
  cases hfind : pm.find_by_node_id nid with
  | none =>
    by_cases hd : mt == DhtMessageType.discovery <;>
      simp [get_send_params, plan_spec, hfind, hd, SendMessageParams.new, SendMessageParams.neighbours,
        SendMessageParams.neighbours_include_clients]
  | some dest_peer =>
    simp [get_send_params, plan_spec, hfind, SendMessageParams.new, SendMessageParams.direct_public_key]

/-- Claim C1: for an undecryptable inbound message whose destination
does not identify the source peer, `forward` makes exactly one
`send_raw` call whose broadcast strategy is the plan the spec
describes — direct delivery when the destination is a known public key
or a node id that resolves to a known peer, otherwise a neighbours
broadcast excluding exactly the source peer's public key plus the
authenticated origin when present, clients-inclusive exactly when the
message type is Discovery — with the original DHT header attached. -/
theorem forward_resolves_plan (pm : PeerManager) (send_raw_result : Except DhtOutboundError Unit) (message : DecryptedDhtMessage) (hfail : message.decryption_failed = true) (hnm : destination_matches_source message.dht_header.destination message.source_peer = false) :
  ((forward pm send_raw_result message).1.map fun call => call.params.broadcast_strategy)
    = some (some (plan_spec pm message.dht_header.destination message.dht_header.message_type message.source_peer.public_key message.authenticated_origin))
  ∧ ((forward pm send_raw_result message).1.map fun call => call.params.dht_header)
    = some (some message.dht_header) := by
cases hres : message.decryption_result with
| ok v =>
  rw [DecryptedDhtMessage.decryption_failed, hres] at hfail
  simp at hfail
| error body =>
  have hstrat := get_send_params_strategy pm message.dht_header message.source_peer.public_key message.authenticated_origin
  cases send_raw_result with
  | ok u =>
    simp [forward, hnm, hres, SendMessageParams.finish, SendMessageParams.with_dht_header, hstrat]
  | error e =>
    simp [forward, hnm, hres, SendMessageParams.finish, SendMessageParams.with_dht_header, hstrat]

theorem forward_resolves_plan_witness :
  (((forward [⟨10, 20⟩] (Except.ok ()) ⟨⟨1, 2⟩, some 8, ⟨NodeDestination.unknown, DhtMessageType.discovery⟩, Except.error 0⟩).1.map fun call => call.params.broadcast_strategy)
    = some (some (plan_spec [⟨10, 20⟩] NodeDestination.unknown DhtMessageType.discovery 1 (some 8))))
  ∧ (((forward [⟨10, 20⟩] (Except.ok ()) ⟨⟨1, 2⟩, some 8, ⟨NodeDestination.unknown, DhtMessageType.discovery⟩, Except.error 0⟩).1.map fun call => call.params.dht_header)
    = some (some ⟨NodeDestination.unknown, DhtMessageType.discovery⟩)) :=
⟨(forward_resolves_plan [⟨10, 20⟩] (Except.ok ())
    ⟨⟨1, 2⟩, some 8, ⟨NodeDestination.unknown, DhtMessageType.discovery⟩, Except.error 0⟩
    rfl rfl).1,
 (forward_resolves_plan [⟨10, 20⟩] (Except.ok ())
    ⟨⟨1, 2⟩, some 8, ⟨NodeDestination.unknown, DhtMessageType.discovery⟩, Except.error 0⟩
    rfl rfl).2⟩

/-- Claim C3: when the declared destination identifies the immediate
sending peer itself — its public key equals the source peer's public
key, or its node id equals the source peer's node id — `forward`
discards the message: no `send_raw` call is made and the result is
`Ok`. -/
theorem forward_discards_self_destined (pm : PeerManager) (send_raw_result : Except DhtOutboundError Unit) (message : DecryptedDhtMessage) (_hfail : message.decryption_failed = true) (h : message.dht_header.destination.public_key = some message.source_peer.public_key ∨ message.dht_header.destination.node_id = some message.source_peer.node_id) :
  forward pm send_raw_result message = (Option.none, Except.ok ()) := by
have hm : destination_matches_source message.dht_header.destination message.source_peer = true := by
  rcases h with h1 | h1
  · rw [destination_matches_source, h1]
    simp
  · cases hdest : message.dht_header.destination with
    | unknown =>
      rw [hdest] at h1
      simp [NodeDestination.node_id] at h1
    | publicKey pk =>
      rw [hdest] at h1
      simp [NodeDestination.node_id] at h1
    | nodeId nid =>
      rw [hdest] at h1
      simp [NodeDestination.node_id] at h1
      simp [destination_matches_source, NodeDestination.public_key, NodeDestination.node_id, h1]
simp [forward, hm]

theorem forward_discards_self_destined_witness :
  forward [] (Except.ok ()) ⟨⟨1, 2⟩, Option.none, ⟨NodeDestination.publicKey 1, DhtMessageType.none⟩, Except.error 0⟩ = (Option.none, Except.ok ()) :=
forward_discards_self_destined [] (Except.ok ())
  ⟨⟨1, 2⟩, Option.none, ⟨NodeDestination.publicKey 1, DhtMessageType.none⟩, Except.error 0⟩
  rfl (Or.inl rfl)

/-- Claim C2 (counterexample): for an undecryptable message whose
forwarding send fails, `handle` does NOT pass the message to the next
service and escalates the failure as the call's error. -/
theorem handle_forward_failure_skips_next :
  (handle [] (Except.error (DhtOutboundError.error 0)) (Except.ok ()) ⟨⟨1, 2⟩, Option.none, ⟨NodeDestination.unknown, DhtMessageType.none⟩, Except.error 0⟩).next_called = false
  ∧ (handle [] (Except.error (DhtOutboundError.error 0)) (Except.ok ()) ⟨⟨1, 2⟩, Option.none, ⟨NodeDestination.unknown, DhtMessageType.none⟩, Except.error 0⟩).result
      = Except.error (PipelineError.from_debug (StoreAndForwardError.dhtOutboundError (DhtOutboundError.error 0))) := by
constructor <;> rfl

/-- Claim C2 (amended): `handle` passes the message to the next
pipeline stage exactly when decryption succeeded or the forwarding
attempt succeeded; when forwarding fails, the next stage is not invoked
and the failure is escalated as the call's error (wrapped by
`PipelineError::from_debug`); whenever the next stage is invoked the
call's result is the next stage's result. -/
theorem handle_forwarding_failure_aborts (pm : PeerManager) (send_raw_result : Except DhtOutboundError Unit) (next_result : Except PipelineError Unit) (message : DecryptedDhtMessage) :
  ((handle pm send_raw_result next_result message).next_called = true ↔
    (message.decryption_failed = false ∨ (forward pm send_raw_result message).2 = Except.ok ()))
  ∧ (∀ e, (forward pm send_raw_result message).2 = Except.error e → message.decryption_failed = true →
      (handle pm send_raw_result next_result message).next_called = false
      ∧ (handle pm send_raw_result next_result message).result = Except.error (PipelineError.from_debug e))
  ∧ ((handle pm send_raw_result next_result message).next_called = true →
      (handle pm send_raw_result next_result message).result = next_result) := by
by_cases hf : message.decryption_failed
· rcases hfw : forward pm send_raw_result message with ⟨call, r⟩
  cases r with
  | ok u =>
    cases u
    refine ⟨?_, ?_, ?_⟩
    · simp [handle, hf, hfw]
    · intro e he _
      simp at he
    · intro _
      simp [handle, hf, hfw]
  | error e0 =>
    refine ⟨?_, ?_, ?_⟩
    · simp [handle, hf, hfw]
    · intro e he _
      simp at he
      rw [← he]
      simp [handle, hf, hfw]
    · intro hnext
      simp [handle, hf, hfw] at hnext
· have hf2 : message.decryption_failed = false := by simpa using hf
  refine ⟨?_, ?_, ?_⟩
  · simp [handle, hf2]
  · intro e _ hfail
    rw [hfail] at hf2
    simp at hf2
  · intro _
    simp [handle, hf2]

theorem handle_forwarding_failure_aborts_witness :
  ((handle [] (Except.error (DhtOutboundError.error 1)) (Except.ok ()) ⟨⟨1, 2⟩, Option.none, ⟨NodeDestination.unknown, DhtMessageType.none⟩, Except.error 0⟩).next_called = false
  ∧ (handle [] (Except.error (DhtOutboundError.error 1)) (Except.ok ()) ⟨⟨1, 2⟩, Option.none, ⟨NodeDestination.unknown, DhtMessageType.none⟩, Except.error 0⟩).result
      = Except.error (PipelineError.from_debug (StoreAndForwardError.dhtOutboundError (DhtOutboundError.error 1))))
  ∧ ((handle [] (Except.ok ()) (Except.ok ()) ⟨⟨1, 2⟩, Option.none, ⟨NodeDestination.unknown, DhtMessageType.none⟩, Except.error 0⟩).next_called = true →
      (handle [] (Except.ok ()) (Except.ok ()) ⟨⟨1, 2⟩, Option.none, ⟨NodeDestination.unknown, DhtMessageType.none⟩, Except.error 0⟩).result = Except.ok ()) :=
⟨(handle_forwarding_failure_aborts [] (Except.error (DhtOutboundError.error 1)) (Except.ok ())
    ⟨⟨1, 2⟩, Option.none, ⟨NodeDestination.unknown, DhtMessageType.none⟩, Except.error 0⟩).2.1
  (StoreAndForwardError.dhtOutboundError (DhtOutboundError.error 1)) rfl rfl,
 (handle_forwarding_failure_aborts [] (Except.ok ()) (Except.ok ())
    ⟨⟨1, 2⟩, Option.none, ⟨NodeDestination.unknown, DhtMessageType.none⟩, Except.error 0⟩).2.2⟩

end Forwarder

namespace OutboundMessaging

theorem start_forwarding_all_ok (to_envelope_bytes : OutboundMessage → Except MessagingProtocolError Nat) (framed_send_ok : OutboundMessage → Bool) : ∀ queue : List OutboundMessage, (∀ q ∈ queue, (to_envelope_bytes q).isOk = true ∧ framed_send_ok q = true) → start_forwarding_messages to_envelope_bytes framed_send_ok queue = (queue.map fun q => MessagingEvent.messageSent q.tag, Except.ok ())
| [], _ => by simp [start_forwarding_messages]
| q :: rest, h => by
  obtain ⟨hok, hw⟩ := h q (List.mem_cons_self q rest)
  cases henv : to_envelope_bytes q with
  | error e => rw [henv] at hok; simp [Except.isOk, Except.toBool] at hok
  | ok b =>
    have ih := start_forwarding_all_ok to_envelope_bytes framed_send_ok rest
      (fun p hp => h p (List.mem_cons_of_mem q hp))
    simp [start_forwarding_messages, henv, hw, ih]

/-- Claim C6: a per-peer worker whose dial attempt fails with any error
other than dial-cancelled emits exactly one send-failure event per
message queued at the time of failure, emits zero message-sent events,
and terminates with `PeerDialFailed`; dial-cancelled outcomes are
retried indefinitely without producing any event or outcome. -/
theorem try_dial_peer_failure_events (queued : List OutboundMessage) (n code : Nat) (rest : List DialOutcome) :
  try_dial_peer queued (List.replicate n DialOutcome.dialCancelled ++ DialOutcome.dialFailed code :: rest)
      = (queued.map MessagingEvent.sendMessageFailed, some (Except.error MessagingProtocolError.peerDialFailed))
  ∧ try_dial_peer queued (List.replicate n DialOutcome.dialCancelled) = ([], Option.none) := by
induction n with
| zero =>
  exact ⟨rfl, rfl⟩
| succ k ih =>
  simpa [List.replicate_succ, try_dial_peer] using ih

theorem start_forwarding_write_failure (to_envelope_bytes : OutboundMessage → Except MessagingProtocolError Nat) (framed_send_ok : OutboundMessage → Bool) : ∀ (pre : List OutboundMessage) (m : OutboundMessage) (rest : List OutboundMessage), (∀ p ∈ pre, (to_envelope_bytes p).isOk = true ∧ framed_send_ok p = true) → (to_envelope_bytes m).isOk = true → framed_send_ok m = false → start_forwarding_messages to_envelope_bytes framed_send_ok (pre ++ m :: rest) = ((pre.map fun p => MessagingEvent.messageSent p.tag) ++ MessagingEvent.sendMessageFailed m :: rest.map MessagingEvent.sendMessageFailed, Except.error MessagingProtocolError.outboundSubstreamFailure)
| [], m, rest, _, hok, hw => by
  cases henv : to_envelope_bytes m with
  | error e => rw [henv] at hok; simp [Except.isOk, Except.toBool] at hok
  | ok b =>
    simp [start_forwarding_messages, henv, hw, flush_all_messages_to_failed_event]
| p :: pre, m, rest, hpre, hok, hw => by
  obtain ⟨hpok, hpw⟩ := hpre p (List.mem_cons_self p pre)
  cases henv : to_envelope_bytes p with
  | error e => rw [henv] at hpok; simp [Except.isOk, Except.toBool] at hpok
  | ok b =>
    have ih := start_forwarding_write_failure to_envelope_bytes framed_send_ok pre m rest
      (fun x hx => hpre x (List.mem_cons_of_mem p hx)) hok hw
    simp [start_forwarding_messages, henv, hpw, ih]

/-- Claim C7: in a streaming worker a substream write failure is fatal:
after any prefix of successfully sent messages, a message whose framed
write fails produces a send-failure event for it and for every message
still queued, no further message-sent events, and the worker terminates
with `OutboundSubstreamFailure`; conversely a queue whose envelopes and
writes all succeed emits exactly one message-sent event per message, in
order, and terminates normally. -/
theorem write_failure_fatal :
  (∀ (to_envelope_bytes : OutboundMessage → Except MessagingProtocolError Nat) (framed_send_ok : OutboundMessage → Bool) (pre : List OutboundMessage) (m : OutboundMessage) (rest : List OutboundMessage),
    (∀ p ∈ pre, (to_envelope_bytes p).isOk = true ∧ framed_send_ok p = true) →
    (to_envelope_bytes m).isOk = true → framed_send_ok m = false →
    start_forwarding_messages to_envelope_bytes framed_send_ok (pre ++ m :: rest)
      = ((pre.map fun p => MessagingEvent.messageSent p.tag)
          ++ MessagingEvent.sendMessageFailed m :: rest.map MessagingEvent.sendMessageFailed,
         Except.error MessagingProtocolError.outboundSubstreamFailure))
  ∧ (∀ (to_envelope_bytes : OutboundMessage → Except MessagingProtocolError Nat) (framed_send_ok : OutboundMessage → Bool) (queue : List OutboundMessage),
    (∀ q ∈ queue, (to_envelope_bytes q).isOk = true ∧ framed_send_ok q = true) →
    start_forwarding_messages to_envelope_bytes framed_send_ok queue
      = (queue.map fun q => MessagingEvent.messageSent q.tag, Except.ok ())) :=
⟨fun env wok pre m rest hpre hok hw => start_forwarding_write_failure env wok pre m rest hpre hok hw,
 fun env wok queue h => start_forwarding_all_ok env wok queue h⟩

theorem write_failure_fatal_witness :
  (start_forwarding_messages (fun q => Except.ok q.body) (fun q => q.tag != 2)
      ([⟨1, 0, 0, 0⟩] ++ (⟨2, 0, 0, 0⟩ : OutboundMessage) :: [⟨3, 0, 0, 0⟩])
    = ([MessagingEvent.messageSent 1, MessagingEvent.sendMessageFailed ⟨2, 0, 0, 0⟩, MessagingEvent.sendMessageFailed ⟨3, 0, 0, 0⟩],
       Except.error MessagingProtocolError.outboundSubstreamFailure))
  ∧ (start_forwarding_messages (fun q => Except.ok q.body) (fun _ => true) [⟨1, 0, 0, 0⟩, ⟨4, 0, 0, 0⟩]
    = ([MessagingEvent.messageSent 1, MessagingEvent.messageSent 4], Except.ok ())) :=
⟨write_failure_fatal.1 (fun q => Except.ok q.body) (fun q => q.tag != 2)
    [⟨1, 0, 0, 0⟩] ⟨2, 0, 0, 0⟩ [⟨3, 0, 0, 0⟩]
    (by decide) rfl rfl,
 write_failure_fatal.2 (fun q => Except.ok q.body) (fun _ => true) [⟨1, 0, 0, 0⟩, ⟨4, 0, 0, 0⟩]
    (by decide)⟩

/-- Claim C10: a failure to construct the signed envelope for one
queued message is not fatal: the worker emits exactly one send-failure
event for that message and continues with the remaining queue (whose
events and outcome are unchanged); in particular, when every later
message's envelope and write succeed, they are all still sent and the
worker terminates normally. -/
theorem envelope_failure_not_fatal (to_envelope_bytes : OutboundMessage → Except MessagingProtocolError Nat) (framed_send_ok : OutboundMessage → Bool) (m : OutboundMessage) (rest : List OutboundMessage) (e : MessagingProtocolError) (he : to_envelope_bytes m = Except.error e) :
  start_forwarding_messages to_envelope_bytes framed_send_ok (m :: rest)
    = (MessagingEvent.sendMessageFailed m :: (start_forwarding_messages to_envelope_bytes framed_send_ok rest).1,
       (start_forwarding_messages to_envelope_bytes framed_send_ok rest).2)
  ∧ ((∀ q ∈ rest, (to_envelope_bytes q).isOk = true ∧ framed_send_ok q = true) →
    start_forwarding_messages to_envelope_bytes framed_send_ok (m :: rest)
      = (MessagingEvent.sendMessageFailed m :: rest.map fun q => MessagingEvent.messageSent q.tag, Except.ok ())) := by
constructor
· simp [start_forwarding_messages, he]
· intro hrest
  have hall := start_forwarding_all_ok to_envelope_bytes framed_send_ok rest hrest
  simp [start_forwarding_messages, he, hall]

theorem envelope_failure_not_fatal_witness :
  start_forwarding_messages (fun q => if q.tag == 1 then Except.error (MessagingProtocolError.envelopeFailure 9) else Except.ok q.body) (fun _ => true) [⟨1, 0, 0, 0⟩, ⟨2, 0, 0, 0⟩]
    = (MessagingEvent.sendMessageFailed ⟨1, 0, 0, 0⟩ :: [MessagingEvent.messageSent 2], Except.ok ()) :=
(envelope_failure_not_fatal
  (fun q => if q.tag == 1 then Except.error (MessagingProtocolError.envelopeFailure 9) else Except.ok q.body)
  (fun _ => true) ⟨1, 0, 0, 0⟩ [⟨2, 0, 0, 0⟩] (MessagingProtocolError.envelopeFailure 9) rfl).2
  (by decide)

end OutboundMessaging
